import Mathlib

/-!
Verification development for the `eink-assist-screen` firmware
(`src/eink-screen-component/src`).

The definitions below are a shallow embedding of the C++ sources:

* rendering constants from `app_state.h`;
* the remote configuration record and its defaults from `config.h`;
* `ConfigManager::loadRemoteConfig` and `ConfigManager::buildImageUrl`
  from `config_manager.cpp`, with the HTTP exchange and the parsed JSON
  document made explicit parameters;
* `UiRenderer::showRemoteImage` from `ui_renderer.cpp`, modelled as a
  function from the per-chunk network behaviour to the trace of
  externally visible events (connection attempts, HTTP requests, draws,
  error presentations) together with the updated application state.

Machine integers are modelled as `Nat` (the relevant C++ values are
non-negative throughout) except HTTP status codes and declared response
sizes, which the code compares against 200 and 0 and which are `Int`.
Bytes are `Nat` values; the `uint8_t` store of `~b` is `255 - b % 256`.
-/

/-! ## Rendering constants (`app_state.h`) -/

def RENDER_CHUNKS : Nat := 3

def BITMAP_SIZE : Nat := 800 * 480 / 8

def CHUNK_SIZE : Nat := BITMAP_SIZE / RENDER_CHUNKS

def BMP_HEADER_SIZE : Nat := 62

/-! ## Remote configuration record (`config.h`) -/

structure RemoteConfig where
  imageBaseUrl : String
  imagePath : String
  imageFormat : String
  imageThreshold : Nat
  imageUrl : String
  imageTemplate : String
  displayWidth : Nat
  displayHeight : Nat
  refreshIntervalSec : Nat
deriving DecidableEq

/-- Constructor defaults of `RemoteConfig` in `config.h`. -/
def RemoteConfig.default : RemoteConfig :=
  { imageBaseUrl := "http://192.168.0.129:8000"
    imagePath := "/image"
    imageFormat := "bmp"
    imageThreshold := 128
    imageUrl := ""
    imageTemplate := ""
    displayWidth := 800
    displayHeight := 480
    refreshIntervalSec := 60 }

/-! ## Chunk geometry (`showRemoteImage`, `ui_renderer.cpp` lines 195-204, 270) -/

/-- `totalPixels / RENDER_CHUNKS` with `totalPixels = width * height`. -/
def pixelsPerChunk (w h : Nat) : Nat := w * h / RENDER_CHUNKS

/-- `bytesPerChunk = pixelsPerChunk / 8`. -/
def bytesPerChunk (w h : Nat) : Nat := pixelsPerChunk w h / 8

/-- `rowsPerChunk = displayHeight / RENDER_CHUNKS`. -/
def rowsPerChunk (h : Nat) : Nat := h / RENDER_CHUNKS

/-- `chunkOffsetBytes = BMP_HEADER_SIZE + chunk * bytesPerChunk`. -/
def chunkOffsetBytes (w h chunk : Nat) : Nat :=
  BMP_HEADER_SIZE + chunk * bytesPerChunk w h

/-- `yPos = chunk * rowsPerChunk` (drawing row of a chunk). -/
def yPos (h chunk : Nat) : Nat := chunk * rowsPerChunk h

/-! ## Byte inversion (`ui_renderer.cpp` lines 266-268)

`state.bmpBuffer[i] = ~state.bmpBuffer[i]` on a `uint8_t`: the bitwise
complement of a byte value `b < 256` stored back into a byte is `255 - b`. -/

def invertByte (b : Nat) : Nat := 255 - b % 256

/-! ## URL construction (`buildImageUrl`, `config_manager.cpp` lines 84-108)

The two `snprintf` format strings are embedded as the query-parameter
list `imageQuery` (in the exact order the format strings emit them)
glued by `renderQuery`, which interleaves `=` and `&` exactly as the
format strings do.  `buildImageUrl` is the resulting URL string,
truncated to the `char url[2048]` buffer: `snprintf(url, sizeof(url),
...)` writes at most 2047 characters and silently drops the rest. -/

/-- Query parameters emitted for one chunk request, in `snprintf` order:
`"...?format=%s&threshold=%d&template=%s&offset=%d&limit=%d"` when
`config.imageTemplate.length() > 0`, otherwise
`"...?url=%s&format=%s&threshold=%d&offset=%d&limit=%d"`. -/
def imageQuery (config : RemoteConfig) (chunkOffset chunkLimit : Nat) :
    List (String × String) :=
  if config.imageTemplate.length > 0 then
    [("format", config.imageFormat),
     ("threshold", toString config.imageThreshold),
     ("template", config.imageTemplate),
     ("offset", toString chunkOffset),
     ("limit", toString chunkLimit)]
  else
    [("url", config.imageUrl),
     ("format", config.imageFormat),
     ("threshold", toString config.imageThreshold),
     ("offset", toString chunkOffset),
     ("limit", toString chunkLimit)]

/-- Renders `k=v` pairs joined by `&`. -/
def renderQuery : List (String × String) → String
  | [] => ""
  | [(k, v)] => k ++ "=" ++ v
  | (k, v) :: p :: rest => k ++ "=" ++ v ++ "&" ++ renderQuery (p :: rest)

/-- `snprintf(buf, size, ...)` keeps at most `size - 1` characters of
the formatted output and silently truncates the rest.  (Every string
involved here is ASCII, so characters coincide with bytes.) -/
def snprintfTrunc (size : Nat) (s : String) : String :=
  ⟨s.data.take (size - 1)⟩

/-- `ConfigManager::buildImageUrl`: base URL, path, `?`, and the query
string produced by the selected `snprintf` format string, truncated to
the 2048-byte `url` buffer exactly as `snprintf` does. -/
def buildImageUrl (config : RemoteConfig) (chunkOffset chunkLimit : Nat) : String :=
  snprintfTrunc 2048 (config.imageBaseUrl ++ config.imagePath ++ "?" ++
    renderQuery (imageQuery config chunkOffset chunkLimit))

/-! ## Remote configuration fetch (`loadRemoteConfig`, `config_manager.cpp` lines 7-82)

The JSON document is modelled structurally: each recognized field is an
`Option`, `none` meaning `containsKey` is false. The HTTP exchange is an
explicit `ConfigNet` parameter (connection success, status code, parse
result; `parsed = none` models a `DeserializationError`). -/

structure ImageParamsJson where
  format : Option String
  threshold : Option Nat
  url : Option String
  imgTemplate : Option String
deriving DecidableEq

structure ImageJson where
  base_url : Option String
  path : Option String
  parameters : Option ImageParamsJson
deriving DecidableEq

structure DisplayJson where
  width : Option Nat
  height : Option Nat
  refresh_interval_sec : Option Nat
deriving DecidableEq

structure ConfigJson where
  image : Option ImageJson
  display : Option DisplayJson
deriving DecidableEq

/-- The field-update block of `loadRemoteConfig` (lines 38-65): each
present key overwrites the corresponding field, absent keys leave it. -/
def applyConfigJson (config : RemoteConfig) (doc : ConfigJson) : RemoteConfig :=
  let config :=
    match doc.image with
    | none => config
    | some img =>
      let config :=
        match img.base_url with
        | none => config
        | some v => { config with imageBaseUrl := v }
      let config :=
        match img.path with
        | none => config
        | some v => { config with imagePath := v }
      match img.parameters with
      | none => config
      | some params =>
        let config :=
          match params.format with
          | none => config
          | some v => { config with imageFormat := v }
        let config :=
          match params.threshold with
          | none => config
          | some v => { config with imageThreshold := v }
        let config :=
          match params.url with
          | none => config
          | some v => { config with imageUrl := v }
        match params.imgTemplate with
        | none => config
        | some v => { config with imageTemplate := v }
  match doc.display with
  | none => config
  | some d =>
    let config :=
      match d.width with
      | none => config
      | some v => { config with displayWidth := v }
    let config :=
      match d.height with
      | none => config
      | some v => { config with displayHeight := v }
    match d.refresh_interval_sec with
    | none => config
    | some v => { config with refreshIntervalSec := v }

/-- Environment of one configuration fetch: outcome of `http.begin`,
status code of `http.get`, and the parse result of the payload. -/
structure ConfigNet where
  beginOk : Bool
  httpCode : Int
  parsed : Option ConfigJson
deriving DecidableEq

/-- `ConfigManager::loadRemoteConfig`: returns the (possibly updated)
configuration together with the success flag the function returns. -/
def loadRemoteConfig (config : RemoteConfig) (net : ConfigNet) :
    RemoteConfig × Bool :=
  if net.beginOk = false then (config, false)
  else if net.httpCode ≠ 200 then (config, false)
  else
    match net.parsed with
    | none => (config, false)
    | some doc => (applyConfigJson config doc, true)

/-! ## The render pass (`showRemoteImage`, `ui_renderer.cpp` lines 191-283)

`AppState` carries the configuration, the transfer buffer (a byte list;
the C++ buffer is the fixed array `uint8_t bmpBuffer[CHUNK_SIZE]`), and
the `lastRenderSuccess` flag consulted by the failure-presentation
branches.  The per-chunk network behaviour is a `ChunkNet` environment:
`begin` outcome, HTTP status, declared response size, and the byte
stream the chunk read would deliver.  The pass is modelled as the list
of externally visible events plus the updated state and return value. -/

structure AppState where
  config : RemoteConfig
  bmpBuffer : List Nat
  lastRenderSuccess : Bool
deriving DecidableEq

/-- Network behaviour for one chunk request. -/
structure ChunkNet where
  beginOk : Bool
  httpCode : Int
  responseSize : Int
  payload : List Nat
deriving DecidableEq

/-- Externally visible events of a render pass. -/
inductive Event where
  | beginAttempt (chunk : Nat)
  | opened (chunk : Nat)
  | httpGet (chunk : Nat)
  | drawBitmap (y : Nat) (width rows : Nat)
  | closed (chunk : Nat)
  | drewIndicator
  | drewErrorScreen
deriving DecidableEq

/-- `if (state.lastRenderSuccess) showErrorIndicator(...) else showError(...)`. -/
def presEvent (flag : Bool) : Event :=
  if flag then Event.drewIndicator else Event.drewErrorScreen

/-- Effect of `stream->readBytes(state.bmpBuffer, bytesPerChunk)` followed
by the inversion loop over the `bytesRead` bytes actually read: the
delivered prefix (at most `b` bytes) is stored inverted, the tail of the
buffer keeps its previous contents. -/
def chunkRead (b : Nat) (n : ChunkNet) (buf : List Nat) : List Nat :=
  (n.payload.take b).map invertByte ++ buf.drop (n.payload.take b).length

/-- Chunk whose transport steps all succeed: `http.begin` true, status
200, positive declared size (`ui_renderer.cpp` lines 214, 227, 241). -/
def chunkOk (n : ChunkNet) : Prop :=
  n.beginOk = true ∧ n.httpCode = 200 ∧ 0 < n.responseSize

instance (n : ChunkNet) : Decidable (chunkOk n) := by
  unfold chunkOk; infer_instance

/-- The chunk loop of `showRemoteImage`, processing the listed chunk
indices in order with byte budget `b` and `rowsPerChunk` `r`.  Returns
the event trace, the final state, and the function's return value. -/
def runChunkList (nets : Nat → ChunkNet) (b r : Nat) :
    AppState → List Nat → List Event × AppState × Bool
  | s, [] => ([], { s with lastRenderSuccess := true }, true)
  | s, chunk :: rest =>
    let n := nets chunk
    if n.beginOk = false then
      ([Event.beginAttempt chunk, presEvent s.lastRenderSuccess], s, false)
    else if n.httpCode ≠ 200 then
      ([Event.beginAttempt chunk, Event.opened chunk, Event.httpGet chunk,
        Event.closed chunk, presEvent s.lastRenderSuccess], s, false)
    else if n.responseSize ≤ 0 then
      ([Event.beginAttempt chunk, Event.opened chunk, Event.httpGet chunk,
        Event.closed chunk, presEvent s.lastRenderSuccess], s, false)
    else
      let s' : AppState := { s with bmpBuffer := chunkRead b n s.bmpBuffer }
      let res := runChunkList nets b r s' rest
      (Event.beginAttempt chunk :: Event.opened chunk :: Event.httpGet chunk ::
        Event.drawBitmap (chunk * r) s.config.displayWidth r ::
        Event.closed chunk :: res.1, res.2)

/-- `UiRenderer::showRemoteImage`: geometry is computed from the live
configuration, then the chunks `0, …, RENDER_CHUNKS - 1` run in order.
On completing all chunks, `state.lastRenderSuccess = true` is stored and
`true` returned; every abort path leaves the state untouched and
returns `false` after presenting the error. -/
def showRemoteImage (s : AppState) (nets : Nat → ChunkNet) :
    List Event × AppState × Bool :=
  runChunkList nets (bytesPerChunk s.config.displayWidth s.config.displayHeight)
    (rowsPerChunk s.config.displayHeight) s (List.range RENDER_CHUNKS)

/-- Events of one chunk whose transport steps all fail at some stage:
either the `begin` short-circuit or the post-`GET` aborts. -/
def failChunkEvents (n : ChunkNet) (flag : Bool) (k : Nat) : List Event :=
  if n.beginOk = false then
    [Event.beginAttempt k, presEvent flag]
  else
    [Event.beginAttempt k, Event.opened k, Event.httpGet k,
     Event.closed k, presEvent flag]

/-- Events of one fully successful chunk on a `width`-pixel-wide display
with `r` rows per chunk. -/
def okChunkEvents (width r i : Nat) : List Event :=
  [Event.beginAttempt i, Event.opened i, Event.httpGet i,
   Event.drawBitmap (i * r) width r, Event.closed i]

/-- State after the listed chunks have each read into the buffer. -/
def stateAfter (nets : Nat → ChunkNet) (b : Nat) (s : AppState)
    (l : List Nat) : AppState :=
  { s with bmpBuffer := l.foldl (fun buf i => chunkRead b (nets i) buf) s.bmpBuffer }

/-! ## Concrete fixtures used to instantiate the theorems -/

/-- An 8×3 display: one byte and one row per chunk. -/
def cfgSmall : RemoteConfig :=
  { RemoteConfig.default with displayWidth := 8, displayHeight := 3 }

def stateSmall : AppState :=
  { config := cfgSmall, bmpBuffer := [0], lastRenderSuccess := false }

def stateFlagTrue : AppState :=
  { stateSmall with lastRenderSuccess := true }

/-- Every chunk request succeeds and delivers one byte. -/
def netsGood : Nat → ChunkNet := fun _ => ⟨true, 200, 1, [7]⟩

/-- Every chunk request gets an HTTP 500. -/
def netsBad : Nat → ChunkNet := fun _ => ⟨true, 500, 1, []⟩

/-- Chunk 0 succeeds; from chunk 1 on, the connection cannot be opened. -/
def netsDrop : Nat → ChunkNet :=
  fun k => if k = 0 then ⟨true, 200, 1, [7]⟩ else ⟨false, 0, 0, []⟩

/-- Chunk 0 answers 200 with a declared size of 2 but delivers a single
byte: a short read. -/
def netShort : Nat → ChunkNet := fun _ => ⟨true, 200, 2, [3]⟩

/-- A configuration with both a template name and a source URL set. -/
def cfgTpl : RemoteConfig :=
  { RemoteConfig.default with imageTemplate := "t1", imageUrl := "http://x" }

/-- A configuration whose base URL alone already overflows the
2048-byte URL buffer (the loader accepts remote strings of any
length). -/
def cfgLong : RemoteConfig :=
  { RemoteConfig.default with imageBaseUrl := ⟨List.replicate 2100 'a'⟩ }

/-! # Helper lemmas -/

/-- The `N` half-open ranges `[i*c, i*c + c)`, `i < N`, cover exactly
`[0, N*c)`. -/
theorem chunkCover (c N r : Nat) (hc : 0 < c) :
    (∃ i, i < N ∧ i * c ≤ r ∧ r < i * c + c) ↔ r < N * c := by
  constructor
  · rintro ⟨i, hiN, -, h2⟩
    calc r < i * c + c := h2
    _ = (i + 1) * c := by ring
    _ ≤ N * c := Nat.mul_le_mul_right c (Nat.succ_le_of_lt hiN)
  · intro hr
    refine ⟨r / c, ?_, Nat.div_mul_le_self r c, ?_⟩
    · exact (Nat.div_lt_iff_lt_mul hc).mpr hr
    · calc r = c * (r / c) + r % c := (Nat.div_add_mod r c).symm
      _ < c * (r / c) + c := Nat.add_lt_add_left (Nat.mod_lt r hc) _
      _ = r / c * c + c := by ring

/-- A point lies in at most one of the ranges `[i*c, i*c + c)`. -/
theorem chunkCoverUnique {c i j r : Nat} (hi1 : i * c ≤ r) (hi2 : r < i * c + c)
    (hj1 : j * c ≤ r) (hj2 : r < j * c + c) : i = j := by
  rcases Nat.lt_trichotomy i j with h | h | h
  · exfalso
    have hle : i * c + c ≤ j * c := by
      calc i * c + c = (i + 1) * c := by ring
      _ ≤ j * c := Nat.mul_le_mul_right c (Nat.succ_le_of_lt h)
    exact lt_irrefl r (lt_of_lt_of_le hi2 (le_trans hle hj1))
  · exact h
  · exfalso
    have hle : j * c + c ≤ i * c := by
      calc j * c + c = (j + 1) * c := by ring
      _ ≤ i * c := Nat.mul_le_mul_right c (Nat.succ_le_of_lt h)
    exact lt_irrefl r (lt_of_lt_of_le hj2 (le_trans hle hi1))

/-- Shifted version of `chunkCover`: the ranges `[o + i*c, o + i*c + c)`
cover exactly `[o, o + N*c)`. -/
theorem chunkCoverOff (o c N x : Nat) (hc : 0 < c) :
    (∃ i, i < N ∧ o + i * c ≤ x ∧ x < o + i * c + c) ↔ (o ≤ x ∧ x < o + N * c) := by
  constructor
  · rintro ⟨i, hiN, h1, h2⟩
    refine ⟨le_trans (Nat.le_add_right o (i * c)) h1, ?_⟩
    have hle : i * c + c ≤ N * c := by
      calc i * c + c = (i + 1) * c := by ring
      _ ≤ N * c := Nat.mul_le_mul_right c (Nat.succ_le_of_lt hiN)
    calc x < o + i * c + c := h2
    _ = o + (i * c + c) := by ring
    _ ≤ o + N * c := Nat.add_le_add_left hle o
  · rintro ⟨h1, h2⟩
    have hx : x - o < N * c := (Nat.sub_lt_iff_lt_add h1).mpr h2
    obtain ⟨i, hiN, hi1, hi2⟩ := (chunkCover c N (x - o) hc).mpr hx
    refine ⟨i, hiN, ?_, ?_⟩
    · have h := Nat.add_le_add_left hi1 o
      rwa [Nat.add_sub_cancel' h1] at h
    · have h := Nat.add_lt_add_left hi2 o
      rw [Nat.add_sub_cancel' h1] at h
      calc x < o + (i * c + c) := h
      _ = o + i * c + c := by ring

/-- A point lies in at most one of the shifted ranges. -/
theorem chunkCoverOffUnique {o c i j x : Nat}
    (hi1 : o + i * c ≤ x) (hi2 : x < o + i * c + c)
    (hj1 : o + j * c ≤ x) (hj2 : x < o + j * c + c) : i = j := by
  have ho : o ≤ x := le_trans (Nat.le_add_right o (i * c)) hi1
  have hi1' : i * c ≤ x - o := Nat.le_sub_of_add_le (by omega)
  have hj1' : j * c ≤ x - o := Nat.le_sub_of_add_le (by omega)
  have hi2' : x - o < i * c + c := by
    rw [Nat.sub_lt_iff_lt_add ho]
    calc x < o + i * c + c := hi2
    _ = o + (i * c + c) := by ring
  have hj2' : x - o < j * c + c := by
    rw [Nat.sub_lt_iff_lt_add ho]
    calc x < o + j * c + c := hj2
    _ = o + (j * c + c) := by ring
  exact chunkCoverUnique hi1' hi2' hj1' hj2'

/-- After a pass, the success flag is the previous flag OR-ed with the
pass outcome: a successful pass sets it, a failed pass leaves it as it
was (no abort path ever clears it). -/
theorem runChunkList_flag (nets : Nat → ChunkNet) (b r : Nat) (l : List Nat) :
    ∀ s : AppState,
    ((runChunkList nets b r s l).2.1).lastRenderSuccess
      = (s.lastRenderSuccess || (runChunkList nets b r s l).2.2) := by
  induction l with
  | nil => intro s; simp [runChunkList]
  | cons chunk rest ih =>
    intro s
    by_cases h1 : (nets chunk).beginOk = false
    · simp [runChunkList, h1]
    · by_cases h2 : (nets chunk).httpCode ≠ 200
      · simp [runChunkList, h1, h2]
      · by_cases h3 : (nets chunk).responseSize ≤ 0
        · simp [runChunkList, h1, h2, h3]
        · simpa [runChunkList, h1, h2, h3] using ih _

/-- On a failed pass, which error presentation was drawn is decided by
the incoming `lastRenderSuccess` flag: the corner indicator if it is
set, the full error screen if it is not. -/
theorem runChunkList_pres (nets : Nat → ChunkNet) (b r : Nat) (l : List Nat) :
    ∀ s : AppState, (runChunkList nets b r s l).2.2 = false →
    ((Event.drewIndicator ∈ (runChunkList nets b r s l).1 ↔ s.lastRenderSuccess = true) ∧
     (Event.drewErrorScreen ∈ (runChunkList nets b r s l).1 ↔ s.lastRenderSuccess = false)) := by
  induction l with
  | nil => intro s hfail; simp [runChunkList] at hfail
  | cons chunk rest ih =>
    intro s hfail
    by_cases h1 : (nets chunk).beginOk = false
    · cases hs : s.lastRenderSuccess <;> simp [runChunkList, h1, presEvent, hs]
    · by_cases h2 : (nets chunk).httpCode ≠ 200
      · cases hs : s.lastRenderSuccess <;> simp [runChunkList, h1, h2, presEvent, hs]
      · by_cases h3 : (nets chunk).responseSize ≤ 0
        · cases hs : s.lastRenderSuccess <;> simp [runChunkList, h1, h2, h3, presEvent, hs]
        · simp only [runChunkList, h1, h2, h3, if_false, ite_false] at hfail ⊢
          simpa using ih _ (by simpa using hfail)

/-- A chunk whose transport steps all succeed contributes its five
events and hands the updated buffer to the remaining chunks. -/
theorem runChunkList_ok_head (nets : Nat → ChunkNet) (b r : Nat) (s : AppState)
    (k : Nat) (rest : List Nat) (hok : chunkOk (nets k)) :
    runChunkList nets b r s (k :: rest) =
      (Event.beginAttempt k :: Event.opened k :: Event.httpGet k ::
        Event.drawBitmap (k * r) s.config.displayWidth r :: Event.closed k ::
        (runChunkList nets b r
          { s with bmpBuffer := chunkRead b (nets k) s.bmpBuffer } rest).1,
       (runChunkList nets b r
          { s with bmpBuffer := chunkRead b (nets k) s.bmpBuffer } rest).2) := by
  obtain ⟨h1, h2, h3⟩ := hok
  have h1' : ¬ ((nets k).beginOk = false) := by simp [h1]
  have h2' : ¬ ((nets k).httpCode ≠ 200) := by simp [h2]
  have h3' : ¬ ((nets k).responseSize ≤ 0) := not_le.mpr h3
  simp [runChunkList, h1', h2', h3']

/-- A chunk that fails any transport step aborts the pass with its
failure events, leaving the state untouched. -/
theorem runChunkList_fail_head (nets : Nat → ChunkNet) (b r : Nat) (s : AppState)
    (k : Nat) (rest : List Nat) (hfail : ¬ chunkOk (nets k)) :
    runChunkList nets b r s (k :: rest) =
      (failChunkEvents (nets k) s.lastRenderSuccess k, s, false) := by
  by_cases h1 : (nets k).beginOk = false
  · simp [runChunkList, failChunkEvents, h1]
  · have h1t : (nets k).beginOk = true := by
      cases hb : (nets k).beginOk
      · exact absurd hb h1
      · rfl
    by_cases h2 : (nets k).httpCode = 200
    · have h3 : (nets k).responseSize ≤ 0 := by
        by_contra h3
        exact hfail ⟨h1t, h2, by omega⟩
      simp [runChunkList, failChunkEvents, h1, h2, h3]
    · simp [runChunkList, failChunkEvents, h1, h2]

/-- Running an all-successful prefix of chunks emits their events in
order and continues on the remaining chunks from the folded state. -/
theorem runChunkList_ok_append (nets : Nat → ChunkNet) (b r : Nat) (l₁ : List Nat) :
    ∀ (l₂ : List Nat) (s : AppState), (∀ i ∈ l₁, chunkOk (nets i)) →
    runChunkList nets b r s (l₁ ++ l₂) =
      ((l₁.map (okChunkEvents s.config.displayWidth r)).flatten
        ++ (runChunkList nets b r (stateAfter nets b s l₁) l₂).1,
       (runChunkList nets b r (stateAfter nets b s l₁) l₂).2) := by
  induction l₁ with
  | nil => intro l₂ s _; simp [stateAfter]
  | cons k l₁ ih =>
    intro l₂ s hok
    rw [List.cons_append,
      runChunkList_ok_head nets b r s k (l₁ ++ l₂) (hok k (List.mem_cons_self k l₁))]
    rw [ih l₂ _ (fun i hi => hok i (List.mem_cons_of_mem k hi))]
    simp [okChunkEvents, stateAfter, List.append_assoc]

/-! # Claims -/

/-- C10: applying the polarity inversion (bitwise complement of each
byte, as performed on the bytes read into the transfer buffer) twice
reproduces the original byte sequence. -/
theorem claim10_invert_involutive (buf : List Nat) (hbytes : ∀ x ∈ buf, x < 256) :
    (buf.map invertByte).map invertByte = buf := by
  induction buf with
  | nil => rfl
  | cons x l ih =>
    have hx : x < 256 := hbytes x (List.mem_cons_self x l)
    have hl := ih (fun y hy => hbytes y (List.mem_cons_of_mem x hy))
    have h1 : x % 256 = x := Nat.mod_eq_of_lt hx
    have h2 : (255 - x) % 256 = 255 - x := Nat.mod_eq_of_lt (by omega)
    simp only [List.map_cons, hl, invertByte, h1, h2]
    congr 1
    omega

theorem claim10_witness :
    (∀ x ∈ [0, 7, 255], x < 256) ∧
    (([0, 7, 255].map invertByte).map invertByte = [0, 7, 255]) :=
  ⟨by decide, claim10_invert_involutive [0, 7, 255] (by decide)⟩

/-- C2: under the precondition `displayWidth * displayHeight ≤ 800*480`,
the chunk byte budget fits the fixed transfer-buffer capacity
`CHUNK_SIZE`, so the read of up to `bytesPerChunk` bytes and the
inversion loop over the `bytesRead ≤ bytesPerChunk` bytes actually read
touch only in-capacity indices; and the configuration loader stores any
remote width/height verbatim, without validating them against the
buffer capacity. -/
theorem claim2_buffer_safety (w h bytesRead : Nat) (hwh : w * h ≤ 800 * 480)
    (hread : bytesRead ≤ bytesPerChunk w h) :
    bytesPerChunk w h ≤ CHUNK_SIZE ∧
    (∀ i, i < bytesRead → i < CHUNK_SIZE) ∧
    (∀ (config : RemoteConfig) (dw dh : Nat),
      loadRemoteConfig config ⟨true, 200, some ⟨none, some ⟨some dw, some dh, none⟩⟩⟩ =
        ({ config with displayWidth := dw, displayHeight := dh }, true)) := by
  have hb : bytesPerChunk w h ≤ CHUNK_SIZE := by
    have e : bytesPerChunk w h = w * h / 24 := by
      simp [bytesPerChunk, pixelsPerChunk, RENDER_CHUNKS, Nat.div_div_eq_div_mul]
    rw [e]
    calc w * h / 24 ≤ 800 * 480 / 24 := Nat.div_le_div_right hwh
    _ = CHUNK_SIZE := by norm_num [CHUNK_SIZE, BITMAP_SIZE, RENDER_CHUNKS]
  exact ⟨hb, fun i hi => lt_of_lt_of_le hi (le_trans hread hb),
    fun config dw dh => rfl⟩

theorem claim2_witness :
    800 * 480 ≤ 800 * 480 ∧ bytesPerChunk 800 480 ≤ CHUNK_SIZE :=
  ⟨le_refl _, (claim2_buffer_safety 800 480 16000 (by norm_num) (by decide)).1⟩

/-- C4: a configuration fetch whose HTTP status is not 200 or whose
payload fails to parse leaves the configuration record entirely
unchanged and returns failure. -/
theorem claim4_config_unchanged_on_failure (config : RemoteConfig) (net : ConfigNet)
    (hfail : net.httpCode ≠ 200 ∨ net.parsed = none) :
    loadRemoteConfig config net = (config, false) := by
  unfold loadRemoteConfig
  by_cases h1 : net.beginOk = false
  · simp [h1]
  · rcases hfail with hc | hp
    · simp [h1, hc]
    · by_cases hc : net.httpCode ≠ 200
      · simp [h1, hc]
      · simp [h1, hc, hp]

theorem claim4_witness :
    loadRemoteConfig RemoteConfig.default ⟨true, 404, some ⟨none, none⟩⟩ =
      (RemoteConfig.default, false) :=
  claim4_config_unchanged_on_failure RemoteConfig.default _ (Or.inl (by decide))

/-- C5 counterexample: at `width = 6`, `height = 4` the claim's
hypotheses hold (`width*height = 24` is divisible by
`8 * RENDER_CHUNKS = 24`), yet row `3 < height` is covered by none of
the `(startRow, rowsPerChunk)` pairs (`rowsPerChunk = 4/3 = 1`, so the
chunks cover only rows 0, 1, 2): the row ranges do not partition
`[0, height)`. -/
theorem claim5_counterexample :
    0 < 6 ∧ 0 < 4 ∧ (8 * RENDER_CHUNKS ∣ 6 * 4) ∧ 3 < 4 ∧
    (∀ i, i < RENDER_CHUNKS →
      ¬ (yPos 4 i ≤ 3 ∧ 3 < yPos 4 i + rowsPerChunk 4)) := by
  decide

/-- C5 (amended): for positive `width`, `height` with `width*height`
divisible by `8 * RENDER_CHUNKS` and `height` divisible by
`RENDER_CHUNKS`, the `(yPos, rowsPerChunk)` row ranges of the
`RENDER_CHUNKS` chunk plans partition `[0, height)` and the
`(chunkOffsetBytes, bytesPerChunk)` byte ranges partition
`[BMP_HEADER_SIZE, BMP_HEADER_SIZE + width*height/8)`, each with no
gaps or overlaps. -/
theorem claim5_partition (w h : Nat) (hw : 0 < w) (hh : 0 < h)
    (hdiv : 8 * RENDER_CHUNKS ∣ w * h) (hdivh : RENDER_CHUNKS ∣ h) :
    (∀ row, (∃ i, i < RENDER_CHUNKS ∧
        yPos h i ≤ row ∧ row < yPos h i + rowsPerChunk h) ↔ row < h) ∧
    (∀ i j row, yPos h i ≤ row → row < yPos h i + rowsPerChunk h →
        yPos h j ≤ row → row < yPos h j + rowsPerChunk h → i = j) ∧
    (∀ x, (∃ i, i < RENDER_CHUNKS ∧ chunkOffsetBytes w h i ≤ x ∧
        x < chunkOffsetBytes w h i + bytesPerChunk w h) ↔
        (BMP_HEADER_SIZE ≤ x ∧ x < BMP_HEADER_SIZE + w * h / 8)) ∧
    (∀ i j x, chunkOffsetBytes w h i ≤ x →
        x < chunkOffsetBytes w h i + bytesPerChunk w h →
        chunkOffsetBytes w h j ≤ x →
        x < chunkOffsetBytes w h j + bytesPerChunk w h → i = j) := by
  have h3 : (3 : Nat) ∣ h := hdivh
  have h24 : (24 : Nat) ∣ w * h := by
    have : (8 * RENDER_CHUNKS : Nat) = 24 := by norm_num [RENDER_CHUNKS]
    rwa [this] at hdiv
  have hm : 0 < rowsPerChunk h :=
    Nat.div_pos (Nat.le_of_dvd hh h3) (by decide)
  have hNm : 3 * rowsPerChunk h = h := Nat.mul_div_cancel' h3
  have ht : bytesPerChunk w h = w * h / 24 := by
    simp [bytesPerChunk, pixelsPerChunk, RENDER_CHUNKS, Nat.div_div_eq_div_mul]
  have htp : 0 < bytesPerChunk w h := by
    rw [ht]
    exact Nat.div_pos (Nat.le_of_dvd (Nat.mul_pos hw hh) h24) (by norm_num)
  have h3t : 3 * bytesPerChunk w h = w * h / 8 := by
    obtain ⟨u, hu⟩ := h24
    have e1 : (24 * u) / 24 = u := Nat.mul_div_cancel_left u (by norm_num)
    have e2 : (24 * u) / 8 = 3 * u := by
      rw [show (24 * u : Nat) = 8 * (3 * u) by ring]
      exact Nat.mul_div_cancel_left _ (by norm_num)
    rw [ht, hu, e1, e2]
  refine ⟨?_, ?_, ?_, ?_⟩
  · intro row
    have := chunkCover (rowsPerChunk h) 3 row hm
    rw [hNm] at this
    simpa [yPos, RENDER_CHUNKS] using this
  · intro i j row hi1 hi2 hj1 hj2
    exact chunkCoverUnique (c := rowsPerChunk h)
      (by simpa [yPos] using hi1) (by simpa [yPos] using hi2)
      (by simpa [yPos] using hj1) (by simpa [yPos] using hj2)
  · intro x
    have := chunkCoverOff BMP_HEADER_SIZE (bytesPerChunk w h) 3 x htp
    rw [h3t] at this
    simpa [chunkOffsetBytes, RENDER_CHUNKS] using this
  · intro i j x hi1 hi2 hj1 hj2
    exact chunkCoverOffUnique (o := BMP_HEADER_SIZE) (c := bytesPerChunk w h)
      (by simpa [chunkOffsetBytes] using hi1) (by simpa [chunkOffsetBytes] using hi2)
      (by simpa [chunkOffsetBytes] using hj1) (by simpa [chunkOffsetBytes] using hj2)

theorem claim5_witness :
    ((∃ i, i < RENDER_CHUNKS ∧
        yPos 480 i ≤ 200 ∧ 200 < yPos 480 i + rowsPerChunk 480) ↔ 200 < 480) ∧
    ((∃ i, i < RENDER_CHUNKS ∧ chunkOffsetBytes 800 480 i ≤ 20000 ∧
        20000 < chunkOffsetBytes 800 480 i + bytesPerChunk 800 480) ↔
      (BMP_HEADER_SIZE ≤ 20000 ∧ 20000 < BMP_HEADER_SIZE + 800 * 480 / 8)) :=
  ⟨((claim5_partition 800 480 (by norm_num) (by norm_num)
      (by decide) (by decide)).1 200),
   ((claim5_partition 800 480 (by norm_num) (by norm_num)
      (by decide) (by decide)).2.2.1 20000)⟩

/-- C1 counterexample: pass 1 succeeds, pass 2 fails, pass 3 fails.
The pass immediately preceding pass 3 failed, so the claim requires the
full error screen on pass 3 — but the code paints the non-destructive
corner indicator (and not the error screen), because
`lastRenderSuccess` is never cleared by a failing pass. -/
theorem claim1_counterexample :
    (showRemoteImage stateSmall netsGood).2.2 = true ∧
    (showRemoteImage (showRemoteImage stateSmall netsGood).2.1 netsBad).2.2 = false ∧
    (showRemoteImage (showRemoteImage
      (showRemoteImage stateSmall netsGood).2.1 netsBad).2.1 netsBad).2.2 = false ∧
    Event.drewIndicator ∈ (showRemoteImage (showRemoteImage
      (showRemoteImage stateSmall netsGood).2.1 netsBad).2.1 netsBad).1 ∧
    Event.drewErrorScreen ∉ (showRemoteImage (showRemoteImage
      (showRemoteImage stateSmall netsGood).2.1 netsBad).2.1 netsBad).1 := by
  decide

/-- C1 (amended): on a failing pass the presentation is chosen by
whether ANY earlier pass has succeeded, recorded in
`lastRenderSuccess`, which a successful pass sets and no failing pass
ever clears: the corner indicator if the flag is set, the full error
screen if it has never been set (in particular on a first-pass
failure); the failing pass leaves the flag unchanged. -/
theorem claim1_presentation_by_flag (s : AppState) (nets : Nat → ChunkNet)
    (hfail : (showRemoteImage s nets).2.2 = false) :
    (showRemoteImage s nets).2.1.lastRenderSuccess = s.lastRenderSuccess ∧
    (s.lastRenderSuccess = true →
      Event.drewIndicator ∈ (showRemoteImage s nets).1 ∧
      Event.drewErrorScreen ∉ (showRemoteImage s nets).1) ∧
    (s.lastRenderSuccess = false →
      Event.drewErrorScreen ∈ (showRemoteImage s nets).1 ∧
      Event.drewIndicator ∉ (showRemoteImage s nets).1) := by
  have hpres := runChunkList_pres nets
    (bytesPerChunk s.config.displayWidth s.config.displayHeight)
    (rowsPerChunk s.config.displayHeight) (List.range RENDER_CHUNKS) s hfail
  have hflag : (showRemoteImage s nets).2.1.lastRenderSuccess
      = (s.lastRenderSuccess || (showRemoteImage s nets).2.2) :=
    runChunkList_flag nets
      (bytesPerChunk s.config.displayWidth s.config.displayHeight)
      (rowsPerChunk s.config.displayHeight) (List.range RENDER_CHUNKS) s
  refine ⟨?_, fun ht => ⟨hpres.1.mpr ht, fun hm => ?_⟩,
    fun hf => ⟨hpres.2.mpr hf, fun hm => ?_⟩⟩
  · rw [hflag, hfail, Bool.or_false]
  · have h := hpres.2.mp hm
    rw [ht] at h
    exact Bool.noConfusion h
  · have h := hpres.1.mp hm
    rw [hf] at h
    exact Bool.noConfusion h

theorem claim1_witness :
    (showRemoteImage stateFlagTrue netsBad).2.2 = false ∧
    Event.drewIndicator ∈ (showRemoteImage stateFlagTrue netsBad).1 ∧
    Event.drewErrorScreen ∉ (showRemoteImage stateFlagTrue netsBad).1 :=
  ⟨by decide,
   (claim1_presentation_by_flag stateFlagTrue netsBad (by decide)).2.1 (by decide)⟩

/-- C6: a chunk whose HTTP status is 200 and declared length positive
but whose stream delivers fewer than `bytesPerChunk` bytes does not
abort the pass: exactly the delivered bytes are inverted and stored at
the front of the buffer, the stale tail is kept, the buffer is drawn,
the session is closed, and the loop proceeds with the remaining
chunks. -/
theorem claim6_short_read_not_fatal (s : AppState) (nets : Nat → ChunkNet)
    (b r k : Nat) (rest : List Nat) (hok : chunkOk (nets k))
    (hshort : (nets k).payload.length < b) :
    runChunkList nets b r s (k :: rest) =
      (Event.beginAttempt k :: Event.opened k :: Event.httpGet k ::
        Event.drawBitmap (k * r) s.config.displayWidth r :: Event.closed k ::
        (runChunkList nets b r
          { s with bmpBuffer := (nets k).payload.map invertByte ++
              s.bmpBuffer.drop (nets k).payload.length } rest).1,
       (runChunkList nets b r
          { s with bmpBuffer := (nets k).payload.map invertByte ++
              s.bmpBuffer.drop (nets k).payload.length } rest).2) := by
  have htake : (nets k).payload.take b = (nets k).payload :=
    List.take_of_length_le (le_of_lt hshort)
  rw [runChunkList_ok_head nets b r s k rest hok]
  simp [chunkRead, htake]

theorem claim6_witness :
    chunkOk (netShort 0) ∧ (netShort 0).payload.length < 2 ∧
    runChunkList netShort 2 1 stateSmall [0] =
      (Event.beginAttempt 0 :: Event.opened 0 :: Event.httpGet 0 ::
        Event.drawBitmap (0 * 1) stateSmall.config.displayWidth 1 :: Event.closed 0 ::
        (runChunkList netShort 2 1
          { stateSmall with bmpBuffer := (netShort 0).payload.map invertByte ++
              stateSmall.bmpBuffer.drop (netShort 0).payload.length } []).1,
       (runChunkList netShort 2 1
          { stateSmall with bmpBuffer := (netShort 0).payload.map invertByte ++
              stateSmall.bmpBuffer.drop (netShort 0).payload.length } []).2) :=
  ⟨by decide, by decide,
   claim6_short_read_not_fatal stateSmall netShort 2 1 0 [] (by decide) (by decide)⟩

/-- In any run, each chunk contributes equally many `opened` and
`closed` events for every index `j`: `http.end()` runs on the success
path, the non-200 path and the bad-size path, and no `end` happens when
`begin` itself failed. -/
theorem runChunkList_close_eq_open (nets : Nat → ChunkNet) (b r j : Nat) (l : List Nat) :
    ∀ s : AppState,
    (runChunkList nets b r s l).1.count (Event.closed j)
      = (runChunkList nets b r s l).1.count (Event.opened j) := by
  induction l with
  | nil => intro s; simp [runChunkList]
  | cons k rest ih =>
    intro s
    by_cases h1 : (nets k).beginOk = false
    · cases hs : s.lastRenderSuccess <;>
        simp [runChunkList, h1, presEvent, hs, List.count_cons]
    · by_cases h2 : (nets k).httpCode ≠ 200
      · cases hs : s.lastRenderSuccess <;>
          simp [runChunkList, h1, h2, presEvent, hs, List.count_cons]
      · by_cases h3 : (nets k).responseSize ≤ 0
        · cases hs : s.lastRenderSuccess <;>
            simp [runChunkList, h1, h2, h3, presEvent, hs, List.count_cons]
        · simp [runChunkList, h1, h2, h3, List.count_cons, ih _]

/-- Each run opens a session for index `j` at most as often as `j`
occurs in the processed chunk list. -/
theorem runChunkList_open_le_count (nets : Nat → ChunkNet) (b r j : Nat) (l : List Nat) :
    ∀ s : AppState,
    (runChunkList nets b r s l).1.count (Event.opened j) ≤ l.count j := by
  induction l with
  | nil => intro s; simp [runChunkList]
  | cons k rest ih =>
    intro s
    by_cases h1 : (nets k).beginOk = false
    · cases hs : s.lastRenderSuccess <;>
        simp [runChunkList, h1, presEvent, hs, List.count_cons]
    · by_cases h2 : (nets k).httpCode ≠ 200
      · by_cases hjk : j = k
        · cases hs : s.lastRenderSuccess <;>
            simp [runChunkList, h1, h2, presEvent, hs, List.count_cons, hjk]
        · cases hs : s.lastRenderSuccess <;>
            simp [runChunkList, h1, h2, presEvent, hs, List.count_cons, hjk]
      · by_cases h3 : (nets k).responseSize ≤ 0
        · by_cases hjk : j = k
          · cases hs : s.lastRenderSuccess <;>
              simp [runChunkList, h1, h2, h3, presEvent, hs, List.count_cons, hjk]
          · cases hs : s.lastRenderSuccess <;>
              simp [runChunkList, h1, h2, h3, presEvent, hs, List.count_cons, hjk]
        · by_cases hjk : j = k
          · subst hjk
            have h := ih ({ s with bmpBuffer := chunkRead b (nets j) s.bmpBuffer })
            simp [runChunkList, h1, h2, h3, List.count_cons]
            omega
          · have h := ih ({ s with bmpBuffer := chunkRead b (nets k) s.bmpBuffer })
            simp [runChunkList, h1, h2, h3, List.count_cons, hjk]
            omega

/-- C7: in every render pass, every transport session that was
successfully opened is closed exactly once — the number of `closed`
events equals the number of `opened` events for each chunk index, and
each chunk index is opened at most once per pass (so each open has
exactly one matching close, on every exit path: success, non-200,
non-positive size, short read). -/
theorem claim7_close_exactly_once (s : AppState) (nets : Nat → ChunkNet) (j : Nat) :
    (showRemoteImage s nets).1.count (Event.closed j)
      = (showRemoteImage s nets).1.count (Event.opened j) ∧
    (showRemoteImage s nets).1.count (Event.opened j) ≤ 1 := by
  constructor
  · exact runChunkList_close_eq_open nets
      (bytesPerChunk s.config.displayWidth s.config.displayHeight)
      (rowsPerChunk s.config.displayHeight) j (List.range RENDER_CHUNKS) s
  · refine le_trans (runChunkList_open_le_count nets
      (bytesPerChunk s.config.displayWidth s.config.displayHeight)
      (rowsPerChunk s.config.displayHeight) j (List.range RENDER_CHUNKS) s) ?_
    exact List.nodup_iff_count_le_one.mp (List.nodup_range RENDER_CHUNKS) j

/-- A failed chunk's events never mention another chunk index. -/
theorem not_mem_failChunkEvents (n : ChunkNet) (flag : Bool) (k j : Nat) (hjk : j ≠ k) :
    Event.beginAttempt j ∉ failChunkEvents n flag k ∧
    Event.opened j ∉ failChunkEvents n flag k ∧
    Event.httpGet j ∉ failChunkEvents n flag k := by
  by_cases hb : n.beginOk = false <;> cases flag <;>
    simp [failChunkEvents, presEvent, hb, hjk]

/-- A successful chunk's events never mention another chunk index. -/
theorem not_mem_okChunkEvents (w r i j : Nat) (hji : j ≠ i) :
    Event.beginAttempt j ∉ okChunkEvents w r i ∧
    Event.opened j ∉ okChunkEvents w r i ∧
    Event.httpGet j ∉ okChunkEvents w r i := by
  simp [okChunkEvents, hji]

/-- A run on an all-successful prefix followed by a failing chunk emits
the prefix events, then the failing chunk's events, and aborts. -/
theorem runChunkList_abort (nets : Nat → ChunkNet) (b r : Nat) (s : AppState)
    (l₁ l₂ : List Nat) (k : Nat)
    (hok : ∀ i ∈ l₁, chunkOk (nets i)) (hfail : ¬ chunkOk (nets k)) :
    runChunkList nets b r s (l₁ ++ k :: l₂) =
      ((l₁.map (okChunkEvents s.config.displayWidth r)).flatten
        ++ failChunkEvents (nets k) s.lastRenderSuccess k,
       stateAfter nets b s l₁, false) := by
  rw [runChunkList_ok_append nets b r l₁ (k :: l₂) s hok,
    runChunkList_fail_head nets b r (stateAfter nets b s l₁) k l₂ hfail]
  rfl

/-- C3: if chunk `k`'s transport step fails (connection not opened,
status ≠ 200, or non-positive declared length) while chunks `0..k-1`
all succeeded, the pass returns failure, the chunks before `k` have
already been drawn at their rows, and no chunk after `k` is attempted:
no connection attempt, open, or request events exist for any `j > k`. -/
theorem claim3_abort_stops_pass (s : AppState) (nets : Nat → ChunkNet) (k : Nat)
    (hk : k < RENDER_CHUNKS)
    (hpre : ∀ i, i < k → chunkOk (nets i))
    (hfail : ¬ chunkOk (nets k)) :
    (showRemoteImage s nets).2.2 = false ∧
    (∀ i, i < k →
      Event.drawBitmap (yPos s.config.displayHeight i) s.config.displayWidth
        (rowsPerChunk s.config.displayHeight) ∈ (showRemoteImage s nets).1) ∧
    (∀ j, k < j →
      Event.beginAttempt j ∉ (showRemoteImage s nets).1 ∧
      Event.opened j ∉ (showRemoteImage s nets).1 ∧
      Event.httpGet j ∉ (showRemoteImage s nets).1) := by
  have hrange : List.range RENDER_CHUNKS = [0, 1, 2] := rfl
  unfold showRemoteImage
  rw [hrange]
  rcases k with _ | _ | _ | n
  · rw [show ([0, 1, 2] : List Nat) = [] ++ 0 :: [1, 2] from rfl,
      runChunkList_abort nets _ _ s [] [1, 2] 0 (by simp) hfail]
    refine ⟨rfl, fun i hi => absurd hi (Nat.not_lt_zero i), fun j hj => ?_⟩
    cases hs : s.lastRenderSuccess <;>
      by_cases hb : (nets 0).beginOk = false <;>
      refine ⟨?_, ?_, ?_⟩ <;>
      simp [failChunkEvents, presEvent, hb, hs] <;> omega
  · rw [show ([0, 1, 2] : List Nat) = [0] ++ 1 :: [2] from rfl,
      runChunkList_abort nets _ _ s [0] [2] 1
        (by intro i hi; simp at hi; subst hi; exact hpre 0 (by omega)) hfail]
    refine ⟨rfl, fun i hi => ?_, fun j hj => ?_⟩
    · have hi0 : i = 0 := by omega
      subst hi0
      simp [okChunkEvents, yPos]
    · cases hs : s.lastRenderSuccess <;>
        by_cases hb : (nets 1).beginOk = false <;>
        refine ⟨?_, ?_, ?_⟩ <;>
        simp [okChunkEvents, failChunkEvents, presEvent, hb, hs] <;> omega
  · rw [show ([0, 1, 2] : List Nat) = [0, 1] ++ 2 :: [] from rfl,
      runChunkList_abort nets _ _ s [0, 1] [] 2
        (by intro i hi; simp at hi; rcases hi with hi | hi <;> subst hi <;>
          [exact hpre 0 (by omega); exact hpre 1 (by omega)]) hfail]
    refine ⟨rfl, fun i hi => ?_, fun j hj => ?_⟩
    · have hi01 : i = 0 ∨ i = 1 := by omega
      rcases hi01 with hi0 | hi0 <;> subst hi0 <;> simp [okChunkEvents, yPos]
    · cases hs : s.lastRenderSuccess <;>
        by_cases hb : (nets 2).beginOk = false <;>
        refine ⟨?_, ?_, ?_⟩ <;>
        simp [okChunkEvents, failChunkEvents, presEvent, hb, hs] <;> omega
  · exact absurd (show n + 3 < 3 from hk) (by omega)

theorem claim3_witness :
    1 < RENDER_CHUNKS ∧
    (showRemoteImage stateSmall netsDrop).2.2 = false ∧
    Event.drawBitmap (yPos stateSmall.config.displayHeight 0)
      stateSmall.config.displayWidth
      (rowsPerChunk stateSmall.config.displayHeight) ∈
        (showRemoteImage stateSmall netsDrop).1 ∧
    Event.beginAttempt 2 ∉ (showRemoteImage stateSmall netsDrop).1 :=
  ⟨by decide,
   (claim3_abort_stops_pass stateSmall netsDrop 1 (by decide)
      (fun i hi => by interval_cases i; decide) (by decide)).1,
   (claim3_abort_stops_pass stateSmall netsDrop 1 (by decide)
      (fun i hi => by interval_cases i; decide) (by decide)).2.1 0 (by decide),
   ((claim3_abort_stops_pass stateSmall netsDrop 1 (by decide)
      (fun i hi => by interval_cases i; decide) (by decide)).2.2 2 (by decide)).1⟩

/-- C8: a successful configuration fetch updates exactly the fields
present in the parsed JSON: every configuration field of the result
equals the JSON value when the corresponding key chain is present and
the prior value when it is absent. -/
theorem claim8_field_merge (config : RemoteConfig) (net : ConfigNet) (doc : ConfigJson)
    (hb : net.beginOk = true) (hc : net.httpCode = 200) (hp : net.parsed = some doc) :
    (loadRemoteConfig config net).2 = true ∧
    (loadRemoteConfig config net).1.imageBaseUrl
      = (doc.image.bind (fun i => i.base_url)).getD config.imageBaseUrl ∧
    (loadRemoteConfig config net).1.imagePath
      = (doc.image.bind (fun i => i.path)).getD config.imagePath ∧
    (loadRemoteConfig config net).1.imageFormat
      = ((doc.image.bind (fun i => i.parameters)).bind
          (fun p => p.format)).getD config.imageFormat ∧
    (loadRemoteConfig config net).1.imageThreshold
      = ((doc.image.bind (fun i => i.parameters)).bind
          (fun p => p.threshold)).getD config.imageThreshold ∧
    (loadRemoteConfig config net).1.imageUrl
      = ((doc.image.bind (fun i => i.parameters)).bind
          (fun p => p.url)).getD config.imageUrl ∧
    (loadRemoteConfig config net).1.imageTemplate
      = ((doc.image.bind (fun i => i.parameters)).bind
          (fun p => p.imgTemplate)).getD config.imageTemplate ∧
    (loadRemoteConfig config net).1.displayWidth
      = (doc.display.bind (fun d => d.width)).getD config.displayWidth ∧
    (loadRemoteConfig config net).1.displayHeight
      = (doc.display.bind (fun d => d.height)).getD config.displayHeight ∧
    (loadRemoteConfig config net).1.refreshIntervalSec
      = (doc.display.bind (fun d => d.refresh_interval_sec)).getD config.refreshIntervalSec := by
  have hload : loadRemoteConfig config net = (applyConfigJson config doc, true) := by
    simp [loadRemoteConfig, hb, hc, hp]
  rw [hload]
  rcases doc with
    ⟨_ | ⟨_ | bu, _ | pa, _ | ⟨_ | f, _ | t, _ | u, _ | tm⟩⟩, _ | ⟨_ | dw, _ | dh, _ | ri⟩⟩ <;>
    simp [applyConfigJson]

theorem claim8_witness :
    (loadRemoteConfig RemoteConfig.default
      ⟨true, 200, some ⟨none, some ⟨none, none, some 30⟩⟩⟩).1.refreshIntervalSec = 30 ∧
    (loadRemoteConfig RemoteConfig.default
      ⟨true, 200, some ⟨none, some ⟨none, none, some 30⟩⟩⟩).1.displayWidth
        = RemoteConfig.default.displayWidth ∧
    (loadRemoteConfig RemoteConfig.default
      ⟨true, 200, some ⟨none, some ⟨none, none, some 30⟩⟩⟩).1.displayHeight
        = RemoteConfig.default.displayHeight ∧
    (loadRemoteConfig RemoteConfig.default
      ⟨true, 200, some ⟨none, some ⟨none, none, some 30⟩⟩⟩).1.imageUrl
        = RemoteConfig.default.imageUrl := by
  have h := claim8_field_merge RemoteConfig.default
    ⟨true, 200, some ⟨none, some ⟨none, none, some 30⟩⟩⟩
    ⟨none, some ⟨none, none, some 30⟩⟩ rfl rfl rfl
  exact ⟨by simpa using h.2.2.2.2.2.2.2.2.2,
    by simpa using h.2.2.2.2.2.2.2.1,
    by simpa using h.2.2.2.2.2.2.2.2.1,
    by simpa using h.2.2.2.2.2.1⟩

/-- C9 counterexample: a configuration whose base URL alone overflows
the 2048-byte `snprintf` buffer.  Its template is empty, so the claim
demands `url`, `format`, `threshold`, `offset` and `limit` parameters
in the built URL — but the built URL is the first 2047 characters of
the base URL and nothing else: it has no `l` or `u` character at all,
so it contains neither a `limit=` nor a `url=` substring; the trailing
query parameters are silently lost to the truncation. -/
theorem claim9_counterexample :
    cfgLong.imageTemplate.length = 0 ∧
    ¬ (("limit=").data <:+: (buildImageUrl cfgLong 16062 16000).data) ∧
    ¬ (("url=").data <:+: (buildImageUrl cfgLong 16062 16000).data) := by
  have hbase : cfgLong.imageBaseUrl.data = List.replicate 2100 (Char.ofNat 97) := rfl
  have hdata : (buildImageUrl cfgLong 16062 16000).data
      = List.replicate 2047 (Char.ofNat 97) := by
    show (cfgLong.imageBaseUrl ++ cfgLong.imagePath ++ "?" ++
      renderQuery (imageQuery cfgLong 16062 16000)).data.take (2048 - 1)
        = List.replicate 2047 (Char.ofNat 97)
    rw [String.data_append, String.data_append, String.data_append, hbase]
    simp only [List.append_assoc]
    have hle : (2047 : Nat) ≤ (List.replicate 2100 (Char.ofNat 97)).length := by
      rw [List.length_replicate]
      norm_num
    rw [show (2048 : Nat) - 1 = 2047 from rfl,
      List.take_append_of_le_length hle, List.take_replicate,
      min_eq_left (by norm_num)]
  refine ⟨rfl, fun hinf => ?_, fun hinf => ?_⟩
  · have hl : (Char.ofNat 108) ∈ (buildImageUrl cfgLong 16062 16000).data :=
      hinf.subset (by decide)
    rw [hdata] at hl
    exact absurd (List.eq_of_mem_replicate hl) (by decide)
  · have hu : (Char.ofNat 117) ∈ (buildImageUrl cfgLong 16062 16000).data :=
      hinf.subset (by decide)
    rw [hdata] at hu
    exact absurd (List.eq_of_mem_replicate hu) (by decide)

/-- C9 (amended): provided the assembled URL fits the 2048-byte
`snprintf` buffer (untruncated length at most 2047), the built URL is
the base URL, the path, `?`, and exactly the emitted query parameters,
which always include `format`, `threshold`, `offset` and `limit` and
exactly one of `template`/`url`: `template` whenever the configured
template name is non-empty (even if the source URL is also
configured), `url` otherwise.  A longer URL is silently truncated and
loses its trailing parameters. -/
theorem claim9_query_params (config : RemoteConfig) (chunkOffset chunkLimit : Nat)
    (hfit : (config.imageBaseUrl ++ config.imagePath ++ "?" ++
      renderQuery (imageQuery config chunkOffset chunkLimit)).length ≤ 2047) :
    buildImageUrl config chunkOffset chunkLimit =
      config.imageBaseUrl ++ config.imagePath ++ "?" ++
        renderQuery (imageQuery config chunkOffset chunkLimit) ∧
    ("format", config.imageFormat) ∈ imageQuery config chunkOffset chunkLimit ∧
    ("threshold", toString config.imageThreshold) ∈ imageQuery config chunkOffset chunkLimit ∧
    ("offset", toString chunkOffset) ∈ imageQuery config chunkOffset chunkLimit ∧
    ("limit", toString chunkLimit) ∈ imageQuery config chunkOffset chunkLimit ∧
    (0 < config.imageTemplate.length →
      ("template", config.imageTemplate) ∈ imageQuery config chunkOffset chunkLimit ∧
      (∀ v, ("url", v) ∉ imageQuery config chunkOffset chunkLimit)) ∧
    (¬ 0 < config.imageTemplate.length →
      ("url", config.imageUrl) ∈ imageQuery config chunkOffset chunkLimit ∧
      (∀ v, ("template", v) ∉ imageQuery config chunkOffset chunkLimit)) := by
  have hlen : (config.imageBaseUrl ++ config.imagePath ++ "?" ++
      renderQuery (imageQuery config chunkOffset chunkLimit)).data.length ≤ 2047 := hfit
  have htrunc : buildImageUrl config chunkOffset chunkLimit =
      config.imageBaseUrl ++ config.imagePath ++ "?" ++
        renderQuery (imageQuery config chunkOffset chunkLimit) := by
    show (⟨(config.imageBaseUrl ++ config.imagePath ++ "?" ++
      renderQuery (imageQuery config chunkOffset chunkLimit)).data.take (2048 - 1)⟩ : String) = _
    rw [show (2048 : Nat) - 1 = 2047 from rfl, List.take_of_length_le hlen]
  refine ⟨htrunc, ?_⟩
  by_cases hl : 0 < config.imageTemplate.length <;>
    simp [imageQuery, hl]

theorem claim9_witness :
    (cfgTpl.imageBaseUrl ++ cfgTpl.imagePath ++ "?" ++
      renderQuery (imageQuery cfgTpl 16062 16000)).length ≤ 2047 ∧
    buildImageUrl cfgTpl 16062 16000 =
      "http://192.168.0.129:8000/image?format=bmp&threshold=128&template=t1&offset=16062&limit=16000" ∧
    0 < cfgTpl.imageTemplate.length ∧ 0 < cfgTpl.imageUrl.length ∧
    ("template", "t1") ∈ imageQuery cfgTpl 16062 16000 ∧
    (∀ v, ("url", v) ∉ imageQuery cfgTpl 16062 16000) :=
  ⟨by decide, by decide, by decide, by decide,
   ((claim9_query_params cfgTpl 16062 16000 (by decide)).2.2.2.2.2.1 (by decide)).1,
   ((claim9_query_params cfgTpl 16062 16000 (by decide)).2.2.2.2.2.1 (by decide)).2⟩
